import Mathlib

/-!
Verification of the nv_yw7 yWriter-7 codec (`nvywlib/yw7_file.py`,
`nvyw7lib/xml_fixer.py`, `nvyw7lib/novx_to_shortcode.py`) against its
natural-language specification.

Strings are modelled as `List Char` (`Str`); every Python string operation
used by the code (str.replace, str.count, str.find, str.strip and friends,
and the concrete regular expressions of `_convert_to_novx` and
`_postprocess_xml_file`) is embedded as an executable function below.
Recursive scanners take an explicit fuel argument; the callers always pass
a fuel at least the length of the scanned string, which makes the scanner
total and equal to the Python left-to-right scan.
-/

namespace NvYw7

abbrev Str := List Char

/-- Coerce a string literal to the character-list representation. -/
def toL (s : String) : Str := s.data

/-- Python `str.replace(pat, rep)` (all non-overlapping occurrences, left to
right).  `fuel` bounds the number of scanned positions; one unit is spent per
step and every step consumes at least one character, so `s.length` suffices. -/
def replAux (pat rep : Str) : Nat → Str → Str
  | _, [] => []
  | 0, s => s
  | n + 1, c :: cs =>
    if pat ≠ [] ∧ pat.isPrefixOf (c :: cs) then
      rep ++ replAux pat rep n ((c :: cs).drop pat.length)
    else
      c :: replAux pat rep n cs

def pyReplace (pat rep s : Str) : Str := replAux pat rep s.length s

/-- Python `str.count(pat)` for a non-empty pattern (non-overlapping). -/
def cntAux (pat : Str) : Nat → Str → Nat
  | _, [] => 0
  | 0, _ => 0
  | n + 1, c :: cs =>
    if pat.isPrefixOf (c :: cs) then
      1 + cntAux pat n ((c :: cs).drop pat.length)
    else
      cntAux pat n cs

def pyCount (pat s : Str) : Nat := cntAux pat s.length s

/-- Python `str.find(pat)` for a non-empty pattern: index of the first
occurrence, `none` when absent (Python returns `-1`). -/
def findAux (pat : Str) : Nat → Nat → Str → Option Nat
  | _, _, [] => none
  | 0, _, _ => none
  | n + 1, i, c :: cs =>
    if pat.isPrefixOf (c :: cs) then some i
    else findAux pat n (i + 1) cs

def pyFind (pat s : Str) : Option Nat := findAux pat s.length 0 s

/-- Python `str.split(sep)` for a single-character separator (keeps empty
pieces). -/
def splitOnChar (sep : Char) : Str → List Str
  | [] => [[]]
  | c :: r =>
    if c = sep then [] :: splitOnChar sep r
    else
      match splitOnChar sep r with
      | l :: ls => (c :: l) :: ls
      | [] => [[c]]

def splitNl : Str → List Str := splitOnChar '\n'

/-- Python `str.strip()` (no argument: leading and trailing whitespace). -/
def trimWs (s : Str) : Str :=
  ((s.dropWhile Char.isWhitespace).reverse.dropWhile Char.isWhitespace).reverse

/-- Python `str.rstrip()` (trailing whitespace removed). -/
def rstripWs (s : Str) : Str := (s.reverse.dropWhile Char.isWhitespace).reverse

/-- Python `str.lstrip(chars)`: remove leading characters drawn from a set. -/
def lstripSet (cs : List Char) (s : Str) : Str := s.dropWhile (fun c => c ∈ cs)

/-- The entity references handled when unescaping; `html.unescape` knows many
more HTML entities, but these are the only ones this writer can produce
(`html.escape` emits exactly `amp lt gt quot #x27`). -/
def matchRef (s : Str) : Option (Char × Str) :=
  if (toL "amp;").isPrefixOf s then some ('&', s.drop 4)
  else if (toL "lt;").isPrefixOf s then some ('<', s.drop 3)
  else if (toL "gt;").isPrefixOf s then some ('>', s.drop 3)
  else if (toL "quot;").isPrefixOf s then some ('"', s.drop 5)
  else if (toL "apos;").isPrefixOf s then some ('\'', s.drop 5)
  else if (toL "#x27;").isPrefixOf s then some ('\'', s.drop 5)
  else if (toL "#39;").isPrefixOf s then some ('\'', s.drop 4)
  else none

/-- `html.unescape`, restricted to the references of `matchRef`. -/
def unescapeRefs : Nat → Str → Str
  | _, [] => []
  | 0, s => s
  | n + 1, c :: r =>
    if c = '&' then
      match matchRef r with
      | some (ch, rest) => ch :: unescapeRefs n rest
      | none => '&' :: unescapeRefs n r
    else c :: unescapeRefs n r

/-! ### `Yw7File._postprocess_xml_file`: the CDATA line rewriting (C2)

`_CDATA_TAGS` is transcribed from `yw7_file.py` lines 100-133.  In the Python
source the entries `'Conflict'` and `'Field_ChapterHeadingPrefix'` are written
without a separating comma; Python concatenates adjacent string literals, so
the evaluated list holds the single entry
`'ConflictField_ChapterHeadingPrefix'`. -/
def cdataTags : List String :=
  ["Title", "AuthorName", "Bio", "Desc",
   "FieldTitle1", "FieldTitle2", "FieldTitle3", "FieldTitle4",
   "LaTeXHeaderFile", "Tags", "AKA", "ImageFile", "FullName",
   "Goals", "Notes", "RTFFile", "SceneContent", "Outcome", "Goal",
   "ConflictField_ChapterHeadingPrefix",
   "Field_ChapterHeadingSuffix", "Field_PartHeadingPrefix",
   "Field_PartHeadingSuffix", "Field_CustomGoal", "Field_CustomConflict",
   "Field_CustomOutcome", "Field_CustomChrBio", "Field_CustomChrGoals",
   "Field_ArcDefinition", "Field_SceneArcs", "Field_CustomAR"]

/-- One line of the postprocess loop (`yw7_file.py` lines 821-825): for each
CDATA tag, `<T>` becomes `<T><![CDATA[` and `</T>` becomes `]]></T>`.  The
regular expressions used by the source contain only escaped literals, so they
are plain replacements. -/
def cdataLine (line : Str) : Str :=
  cdataTags.foldl
    (fun l tag =>
      pyReplace (toL ("</" ++ tag ++ ">")) (toL ("]]></" ++ tag ++ ">"))
        (pyReplace (toL ("<" ++ tag ++ ">")) (toL ("<" ++ tag ++ "><![CDATA[")) l))
    line

/-- `Yw7File._postprocess_xml_file` body (lines 817-832): header line, CDATA
insertion per line, CDATA whitespace normalization, the `<CHAPTERS />` fix
when the novel has no chapters, and the final unescape. -/
def postprocessText (hasChapters : Bool) (text : Str) : Str :=
  let newlines := toL "<?xml version=\"1.0\" encoding=\"utf-8\"?>"
    :: (splitNl text).map cdataLine
  let t := List.intercalate (toL "\n") newlines
  let t := pyReplace (toL "[CDATA[ \n") (toL "[CDATA[") t
  let t := pyReplace (toL "\n]]") (toL "]]") t
  let t :=
    if hasChapters then t
    else pyReplace (toL "<CHAPTERS />") (toL "<CHAPTERS></CHAPTERS>") t
  unescapeRefs t.length t

/-! ### `Yw7File.write`: the file-replacement protocol (C1)

The on-disk state relevant to `write` is the target file and its `.bak`
sibling.  `os.replace(a, b)` moves `a` onto `b`; the outcomes of the three
fallible operations (`os.replace` to `.bak`, `tree.write`, and the final
`open(... 'w')`/`write` of the postprocess pass) are modelled by Boolean
parameters.  The error branch of `Except` carries the on-disk state left
behind when `Error` is raised. -/
structure FS where
  main : Option String
  bak : Option String
deriving DecidableEq, Repr

/-- `Yw7File._write_element_tree` (lines 1359-1377): back the existing file up
to `.bak`, then serialize; on a serialization failure restore the backup. -/
def writeElementTree (serialized : String) (replaceOk writeOk : Bool)
    (fs : FS) : Except FS FS :=
  match fs.main with
  | some orig =>
    if replaceOk then
      if writeOk then Except.ok ⟨some serialized, some orig⟩
      else Except.error ⟨some orig, none⟩
    else Except.error fs
  | none =>
    if writeOk then Except.ok ⟨some serialized, fs.bak⟩
    else Except.error fs

/-- `Yw7File._postprocess_xml_file` as a file-system step (lines 804-837): the
serialized file is read back, rewritten through `transform`, and written in
place.  On a write failure the routine raises `Error` without touching the
backup, so whatever `_write_element_tree` left at the target path stays
there. -/
def postprocessFile (transform : String → String) (postOk : Bool)
    (fs : FS) : Except FS FS :=
  match fs.main with
  | some content =>
    if postOk then Except.ok ⟨some (transform content), fs.bak⟩
    else Except.error ⟨some content, fs.bak⟩
  | none => Except.error fs

/-- The write path of `Yw7File.write` after the lock check and after
`_build_element_tree` has produced the serialized text (lines 231-249). -/
def yw7Write (serialized : String) (transform : String → String)
    (replaceOk writeOk postOk : Bool) (fs : FS) : Except FS FS :=
  match writeElementTree serialized replaceOk writeOk fs with
  | Except.ok fs1 => postprocessFile transform postOk fs1
  | Except.error fs1 => Except.error fs1

/-- The concrete transform used by `write`: postprocess with the novel's
chapter set known. -/
def postprocessStr (hasChapters : Bool) (s : String) : String :=
  String.mk (postprocessText hasChapters s.data)

/-! ### `Yw7File._read_chapters`: chapter type decoding (C3) -/

/-- Chapter type decoding, `yw7_file.py` lines 923-944.  `unused` is the
presence of `<Unused>`, `chapterType`/`typ` the text of `<ChapterType>` and
`<Type>` when the element is present. -/
def chTypeOf (unused : Bool) (chapterType typ : Option String) : Nat :=
  match chapterType with
  | some yct =>
    if yct = "2" then 1
    else if yct = "1" then 1
    else if unused then 1
    else 0
  | none =>
    match typ with
    | some yt => if yt = "1" then 1 else if unused then 1 else 0
    | none => 0

/-! ### Stage sections: scene type and tags on write and read (C4) -/

/-- `Yw7File.STAGE_MARKER`. -/
def stageMarker : Str := toL "stage"

/-- Modelled from the spec: `list_to_string` (novxlib `novx_globals`, not in
src) joins a list into the comma-separated form the spec describes for tag
and shortName lists. -/
def listToString (l : List Str) : Str := List.intercalate (toL ", ") l

/-- Modelled from the spec: `string_to_list` (novxlib `novx_globals`, not in
src) splits a comma-separated list, stripping blanks and dropping empty
entries. -/
def stringToList (s : Str) : List Str :=
  ((splitOnChar ',' s).map trimWs).filter (fun t => t ≠ [])

/-- `Yw7File._strip_spaces` (lines 1346-1357). -/
def stripSpacesL (l : List Str) : List Str := l.map trimWs

/-- The scene-type flags and the `<Tags>` text that `build_scene_subtree`
emits for a scene. -/
structure SceneTypeOut where
  unused : Bool
  fieldSceneType : Option String
  tagsText : Option Str
deriving DecidableEq, Repr

/-- `<Tags>` is only written when the (possibly marker-extended) tag list is
truthy (`if scTags:`). -/
def tagsTextOf : Option (List Str) → Option Str
  | none => none
  | some [] => none
  | some l => some (listToString l)

/-- `build_scene_subtree` (lines 287-324), restricted to the scene-type
encoding and the `<Tags>` element, for a regular scene (`plotPoint=False`).
A `scType` above 1 is written with the todo encoding `(Unused, '2')` and the
stage marker is appended to the tags; `scType` 0/None is normal; any other
value is written with the unused encoding `(Unused, '0')`. -/
def writeSceneType (scType : Option Int) (tags : Option (List Str)) :
    SceneTypeOut :=
  if scType = some 0 ∨ scType = none then
    ⟨false, none, tagsTextOf tags⟩
  else if 1 < scType.getD 0 then
    let scTags :=
      match tags with
      | none => [stageMarker]
      | some [] => [stageMarker]
      | some l => if stageMarker ∈ l then l else l ++ [stageMarker]
    ⟨true, some "2", tagsTextOf (some scTags)⟩
  else
    ⟨true, some "0", tagsTextOf tags⟩

/-- `Yw7File._read_scenes`, restricted to the scene type and tag decoding
(lines 1178-1186, 1229-1231, 1239-1242, 1339-1342).  The final stage check
assigns `prjScn.tags = prjScn.tags.remove(STAGE_MARKER)`; Python's
`list.remove` returns `None`, so the tags attribute becomes `None`. -/
def readSceneType (unused : Bool) (fieldSceneType : Option String)
    (tagsText : Option Str) : Nat × Option (List Str) :=
  let scType0 : Nat :=
    if fieldSceneType = some "1" ∨ fieldSceneType = some "2" then 1 else 0
  let tags : Option (List Str) :=
    tagsText.map (fun t => stripSpacesL (stringToList t))
  let scType1 := if unused ∧ scType0 = 0 then 1 else scType0
  match tags with
  | some l =>
    if l ≠ [] ∧ stageMarker ∈ l then (3, none) else (scType1, some l)
  | none => (scType1, none)

/-! ### `Yw7File._build_element_tree`: locale project variables (C9) -/

/-- The locale-relevant novel attributes at write time.  `write` calls
`get_languages` first when the language list is `None`, so by the time
`_build_element_tree` runs `novel.languages` is a list. -/
structure LocaleNovel where
  languages : List String
  languageCode : Option String
  countryCode : Option String

/-- Python truthiness of an optional string attribute. -/
def truthyStr : Option String → Bool
  | none => false
  | some s => s ≠ ""

/-- The `if self.novel.languages or self.novel.languageCode or
self.novel.countryCode` guard (line 577). -/
def localeSet (n : LocaleNovel) : Bool :=
  (n.languages ≠ [] : Bool) || truthyStr n.languageCode || truthyStr n.countryCode

/-- One `PROJECTVAR` element (title, description, tags). -/
structure ProjectVar where
  title : String
  desc : Option String
  tags : String
deriving DecidableEq, Repr

/-- Modelled from the spec: `Novel.check_locale` (novxlib, not in src) sets
the language and country codes to the system locale when no reasonable value
is present; it does not alter the language list. -/
def checkLocale (n : LocaleNovel) (sysLang sysCountry : String) : LocaleNovel :=
  { n with
    languageCode := if truthyStr n.languageCode then n.languageCode else some sysLang
    countryCode := if truthyStr n.countryCode then n.countryCode else some sysCountry }

/-- The `PROJECTVARS` block built by `_build_element_tree` (lines 576-598):
two locale variables plus an open/close pair per language code. -/
def buildProjectVars (n : LocaleNovel) (sysLang sysCountry : String) :
    List ProjectVar :=
  if localeSet n then
    let n2 := checkLocale n sysLang sysCountry
    ⟨"Language", n2.languageCode, "0"⟩ ::
    ⟨"Country", n2.countryCode, "0"⟩ ::
    n.languages.flatMap (fun l =>
      [⟨"lang=" ++ l, some ("<HTM <SPAN LANG=\"" ++ l ++ "\"> /HTM>"), "0"⟩,
       ⟨"/lang=" ++ l, some "<HTM </SPAN> /HTM>", "0"⟩])
  else []

/-! ### `Yw7File._convert_to_novx` (lines 706-802): shortcode to flow markup

The regular expressions of the source are embedded as dedicated scanners with
Python's `re.sub` semantics: positions are tried left to right, a failed
match advances one character, a successful match emits the replacement and
resumes after the matched text (the replacement is not rescanned).  `.`
never matches a newline. -/

/-- `re.sub(r'\[\/*[h|c|r|s|u]\d*\]', '', text)`: `[`, any number of
slashes, one character of the class (which contains the literal `|`), digits,
`]`.  Returns the remainder after a match at the current position. -/
def matchBracketTag : Str → Option Str
  | '[' :: r =>
    let r1 := r.dropWhile (· = '/')
    match r1 with
    | c :: r2 =>
      if c ∈ ['h', '|', 'c', 'r', 's', 'u'] then
        match r2.dropWhile Char.isDigit with
        | ']' :: r3 => some r3
        | _ => none
      else none
    | [] => none
  | _ => none

def bracketSub : Nat → Str → Str
  | _, [] => []
  | 0, s => s
  | n + 1, c :: cs =>
    match matchBracketTag (c :: cs) with
    | some rest => bracketSub n rest
    | none => c :: bracketSub n cs

/-- Lazy scan for a terminator: the shortest run of non-newline characters
followed by `term` (the `(.*?)term` idiom).  Returns the run and the
remainder after the terminator. -/
def lazyUpto (term : Str) : Nat → Str → Option (Str × Str)
  | _, [] => none
  | 0, _ => none
  | n + 1, c :: cs =>
    if term.isPrefixOf (c :: cs) then some ([], (c :: cs).drop term.length)
    else if c = '\n' then none
    else
      match lazyUpto term n cs with
      | some (content, rest) => some (c :: content, rest)
      | none => none

/-- One match of `re.sub(fr'\<{code} .+?\/{code}\>', '', text)` at the
current position: the opener, at least one non-newline character, the
closer. -/
def matchSpecial (code : Str) (s : Str) : Option Str :=
  if ('<' :: code ++ [' ']).isPrefixOf s then
    match s.drop (code.length + 2) with
    | c :: cs =>
      if c = '\n' then none
      else
        match lazyUpto ('/' :: code ++ ['>']) cs.length cs with
        | some (_, rest) => some rest
        | none => none
    | [] => none
  else none

def specialSub (code : Str) : Nat → Str → Str
  | _, [] => []
  | 0, s => s
  | n + 1, c :: cs =>
    match matchSpecial code (c :: cs) with
    | some rest => specialSub code n rest
    | none => c :: specialSub code n cs

/-- The `xmlReplacements` table (lines 744-762): entity escapes first, then
paragraph breaks and inline tags, then one opener/closer pair per language
code known to the novel. -/
def xmlReps (langs : List String) : List (Str × Str) :=
  [(toL "&", toL "&amp;"), (toL ">", toL "&gt;"), (toL "<", toL "&lt;"),
   (toL "'", toL "&apos;"), (toL "\"", toL "&quot;"),
   (toL "\n", toL "</p><p>"),
   (toL "[i]", toL "<em>"), (toL "[/i]", toL "</em>"),
   (toL "[b]", toL "<strong>"), (toL "[/b]", toL "</strong>")]
  ++ langs.flatMap (fun l =>
      [(toL ("[lang=" ++ l ++ "]"), toL ("<span xml:lang=\"" ++ l ++ "\">")),
       (toL ("[/lang=" ++ l ++ "]"), toL "</span>")])

/-- The tag names tracked by the cross-line closure (line 756-760). -/
def convTags (langs : List String) : List Str :=
  toL "i" :: toL "b" :: langs.map (fun l => toL ("lang=" ++ l))

/-- `while line.count(opening) > line.count(closing): line += closing`
(lines 782-784).  The flag records that the loop body ran, mirroring
`isOpen[tag] = True`. -/
def appendClosers (o c : Str) : Nat → Str → Bool → Str × Bool
  | 0, line, flag => (line, flag)
  | n + 1, line, flag =>
    if pyCount c line < pyCount o line then
      appendClosers o c n (line ++ c) true
    else (line, flag)

/-- `while line.count(closing) > line.count(opening): line = opening + line`
(lines 785-786). -/
def prependOpeners (o c : Str) : Nat → Str → Str
  | 0, line => line
  | n + 1, line =>
    if pyCount o line < pyCount c line then
      prependOpeners o c n (o ++ line)
    else line

/-- The per-line body of the cross-line markup closure for one tag
(lines 775-787).  `isOpen` is the tag's carry-over flag from the previous
line; the result pairs the rewritten line with the new flag. -/
def crossTagLine (o c : Str) (isOpen : Bool) (line : Str) : Str × Bool :=
  let line1 :=
    if isOpen then
      if (toL "&gt; ").isPrefixOf line then
        toL "&gt; " ++ o ++ lstripSet (toL "&gt; ") line
      else o ++ line
    else line
  let (line2, flag) := appendClosers o c (line1.length + 1) line1 false
  let line3 := prependOpeners o c (line2.length + 1) line2
  (pyReplace (o ++ c) [] line3, flag)

/-- One line processed against every tracked tag in order, threading the
per-tag flags. -/
def crossTagsLine : List (Str × Str) → List Bool → Str → Str × List Bool
  | [], _, line => (line, [])
  | _, [], line => (line, [])
  | (o, c) :: tps, f :: fs, line =>
    let (l1, f1) := crossTagLine o c f line
    let (l2, fs2) := crossTagsLine tps fs l1
    (l2, f1 :: fs2)

def crossLinesGo (tps : List (Str × Str)) : List Bool → List Str → List Str
  | _, [] => []
  | flags, line :: rest =>
    let (l1, flags1) := crossTagsLine tps flags line
    l1 :: crossLinesGo tps flags1 rest

/-- The whole cross-line phase (lines 764-789): split into lines, process,
rejoin, strip trailing whitespace. -/
def crossLineProcess (tags : List Str) (text : Str) : Str :=
  let tps := tags.map (fun t => ('[' :: t ++ [']'], '[' :: '/' :: t ++ [']']))
  rstripWs (List.intercalate (toL "\n")
    (crossLinesGo tps (tags.map (fun _ => false)) (splitNl text)))

/-- One match of `\/\* *@([ef]n\**) (.*?)\*\/` at the current position:
the note type (group 1), the note text (group 2), and the remainder. -/
def matchNote (s : Str) : Option (Str × Str × Str) :=
  match s with
  | '/' :: '*' :: r =>
    match r.dropWhile (· = ' ') with
    | '@' :: c1 :: 'n' :: r2 =>
      if c1 = 'e' ∨ c1 = 'f' then
        let stars := r2.takeWhile (· = '*')
        match r2.drop stars.length with
        | ' ' :: r3 =>
          match lazyUpto (toL "*/") r3.length r3 with
          | some (content, rest) => some (c1 :: 'n' :: stars, content, rest)
          | none => none
        | _ => none
      else none
    | _ => none
  | _ => none

/-- The string assembled by `replace_note` (lines 708-722). -/
def mkNote (counter : Nat) (cls : String) (label content : Str) : Str :=
  toL ("<note id=\"ftn" ++ toString counter ++ "\" class=\"" ++ cls
      ++ "\"><note-citation>")
    ++ label ++ toL "</note-citation><p>" ++ content ++ toL "</p></note>"

/-- `replace_note`: bump both counters; a footnote whose type ends in `*`
labels the citation `*` and gives the number increment back.  Returns the
replacement text and the updated counters. -/
def noteRepl (counter number : Nat) (ntype content : Str) :
    Str × Nat × Nat :=
  let counter2 := counter + 1
  let number2 := number + 1
  if ntype.head? = some 'f' then
    if ntype.getLast? = some '*' then
      (mkNote counter2 "footnote" (toL "*") content, counter2, number2 - 1)
    else
      (mkNote counter2 "footnote" (toL (toString number2)) content,
        counter2, number2)
  else
    (mkNote counter2 "endnote" (toL (toString number2)) content,
      counter2, number2)

/-- `re.sub(r'\/\* *@([ef]n\**) (.*?)\*\/', replace_note, text)` with the
counters threaded through. -/
def noteSub : Nat → Nat → Nat → Str → Str × Nat × Nat
  | _, c, n, [] => ([], c, n)
  | 0, c, n, s => (s, c, n)
  | f + 1, c, n, ch :: cs =>
    match matchNote (ch :: cs) with
    | some (nt, content, rest) =>
      let (repl, c2, n2) := noteRepl c n nt content
      let (tail, c3, n3) := noteSub f c2 n2 rest
      (repl ++ tail, c3, n3)
    | none =>
      let (tail, c2, n2) := noteSub f c n cs
      (ch :: tail, c2, n2)

/-- One match of `\/\*(.*?)\*\/` at the current position. -/
def matchComment (s : Str) : Option (Str × Str) :=
  match s with
  | '/' :: '*' :: r => lazyUpto (toL "*/") r.length r
  | _ => none

/-- The string assembled by `replace_comment` (lines 724-731). -/
def mkComment (creator now content : Str) : Str :=
  toL "<comment><creator>" ++ creator ++ toL "</creator><date>" ++ now
    ++ toL "</date><p>" ++ content ++ toL "</p></comment>"

def commentSub (creator now : Str) : Nat → Str → Str
  | _, [] => []
  | 0, s => s
  | f + 1, ch :: cs =>
    match matchComment (ch :: cs) with
    | some (content, rest) =>
      mkComment creator now content ++ commentSub creator now f rest
    | none => ch :: commentSub creator now f cs

/-- One match of `\<p\>\&gt\; (.*?)\<\/p\>` at the current position. -/
def matchQuot (s : Str) : Option (Str × Str) :=
  if (toL "<p>&gt; ").isPrefixOf s then
    lazyUpto (toL "</p>") (s.drop 8).length (s.drop 8)
  else none

def quotSub : Nat → Str → Str
  | _, [] => []
  | 0, s => s
  | f + 1, ch :: cs =>
    match matchQuot (ch :: cs) with
    | some (content, rest) =>
      toL "<p style=\"quotations\">" ++ content ++ toL "</p>" ++ quotSub f rest
    | none => ch :: quotSub f cs

/-- The state `_convert_to_novx` draws on: the novel's author name (Python
truthiness decides between it and `'unknown'`), the timestamp
`datetime.today().replace(microsecond=0).isoformat()` taken at the moment the
comment is rewritten, and the novel's language list (`write`/`read` ensure it
is a list before conversion runs). -/
structure ConvCtx where
  author : Option String
  now : String
  languages : List String

def creatorOf (ctx : ConvCtx) : Str :=
  match ctx.author with
  | some a => if a ≠ "" then toL a else toL "unknown"
  | none => toL "unknown"

/-- `Yw7File._convert_to_novx` (lines 706-802), with the note counters passed
in (they are reset to 0 by `read` before any scene is converted and persist
across scenes of one document). -/
def convertToNovx (ctx : ConvCtx) (counter number : Nat) (text : Str) : Str :=
  if text = [] then [] else
  let t := pyReplace (toL "<RTFBRK>") [] text
  let t := bracketSub t.length t
  let t := List.foldl (fun t code => specialSub code t.length t) t
    [toL "HTM", toL "TEX", toL "RTF", toL "epub", toL "mobi", toL "rtfimg"]
  let t := crossLineProcess (convTags ctx.languages) t
  let t := List.foldl (fun t pr => pyReplace pr.1 pr.2 t) t
    (xmlReps ctx.languages)
  let t :=
    match pyFind (toL "/*") t with
    | some i =>
      if 0 < i then
        let (t2, _, _) := noteSub t.length counter number t
        commentSub (creatorOf ctx) (toL ctx.now) t2.length t2
      else t
    | none => t
  let t := toL "<p>" ++ t ++ toL "</p>"
  quotSub t.length t

/-! ### `nvyw7lib/xml_fixer.py`: the malformed-markup fixer (C6, C7)

`XmlFixer` extends Python's `html.parser.HTMLParser`: the parser turns the
input string into a stream of start-tag, end-tag and character-data events,
and the handler methods of `XmlFixer` rebuild the output string from that
stream.  The embedding therefore has three layers: `parseHtml` (the
tokenizer, including `convert_charrefs` for character data and the raw-text
mode CPython applies inside `script`/`style` elements), `fixGo` (the
handlers' event processing with the `_format` stack), and `renderEv` (the
strings the handlers append: `html.escape`d data, `<t a="v">`, `</t>`). -/
namespace Fixer

/-- A parser event: character data, a start tag with attributes (an attribute
without a value is `none`), or an end tag. -/
inductive Ev where
  | dat : Str → Ev
  | stTag : Str → List (Str × Option Str) → Ev
  | enTag : Str → Ev
deriving DecidableEq, Repr

/-- Pop the `_format` stack down to (and including) tag `t`: the first
component is the stack entries above `t` (the overlapping formats that get a
synthetic closer), the second the stack below `t`. -/
def popTo (t : Str) : List Str → List Str × List Str
  | [] => ([], [])
  | x :: st =>
    if x = t then ([], st)
    else
      let (p, r) := popTo t st
      (x :: p, r)

/-- The event stream the `XmlFixer` handlers emit, with the `_format` stack
threaded through.  A format start tag already on the stack is dropped; a
format end tag not on the stack is dropped; a format end tag on the stack
first closes every format opened above it (`handle_starttag`,
`handle_endtag` in `xml_fixer.py` lines 44-75). -/
def fixGo (fmt : List Str) : List Ev → List Str → List Ev
  | [], _ => []
  | Ev.dat d :: r, st => Ev.dat d :: fixGo fmt r st
  | Ev.stTag t a :: r, st =>
    if t ∈ fmt then
      if t ∈ st then fixGo fmt r st
      else Ev.stTag t a :: fixGo fmt r (t :: st)
    else Ev.stTag t a :: fixGo fmt r st
  | Ev.enTag t :: r, st =>
    if t ∈ fmt then
      if t ∈ st then
        (popTo t st).1.map Ev.enTag ++ Ev.enTag t :: fixGo fmt r (popTo t st).2
      else fixGo fmt r st
    else Ev.enTag t :: fixGo fmt r st

/-- A stream is clean with respect to the stack `st` of currently open format
tags when every format start opens a tag that is not already open and every
format end closes exactly the innermost open one.  Clean streams are exactly
those on which the fixer acts as the identity; dangling opens at the end of
the stream are allowed, since the fixer never flushes its stack. -/
def clean (fmt : List Str) : List Ev → List Str → Bool
  | [], _ => true
  | Ev.dat _ :: r, st => clean fmt r st
  | Ev.stTag t _ :: r, st =>
    if t ∈ fmt then decide (t ∉ st) && clean fmt r (t :: st)
    else clean fmt r st
  | Ev.enTag t :: r, st =>
    if t ∈ fmt then
      match st with
      | [] => false
      | t2 :: st2 => decide (t = t2) && clean fmt r st2
    else clean fmt r st

lemma popTo_eq (t : Str) :
    ∀ st : List Str, t ∈ st → (popTo t st).1 ++ t :: (popTo t st).2 = st := by
  intro st
  induction st with
  | nil => intro h; cases h
  | cons x st ih =>
    intro h
    by_cases hx : x = t
    · subst hx; simp [popTo]
    · have hmem : t ∈ st := by
        cases h with
        | head => exact absurd rfl hx
        | tail _ h2 => exact h2
      simp only [popTo, hx, if_false]
      simpa using ih hmem

lemma clean_append_enTags (fmt : List Str) :
    ∀ (pre : List Str) (r : List Ev) (st : List Str),
      (∀ x ∈ pre, x ∈ fmt) →
      clean fmt (pre.map Ev.enTag ++ r) (pre ++ st) = clean fmt r st := by
  intro pre
  induction pre with
  | nil => intro r st _; rfl
  | cons a pre ih =>
    intro r st hpre
    have ha : a ∈ fmt := hpre a (by simp)
    simp only [List.map_cons, List.cons_append, clean, ha, if_true,
      decide_eq_true_eq]
    simpa using ih r st (fun x hx => hpre x (by simp [hx]))

/-- Every stream the fixer emits is clean: format tags in the output are
properly stack-nested, with no duplicate opens and no stray closes. -/
lemma clean_fixGo (fmt : List Str) :
    ∀ (evs : List Ev) (st : List Str), (∀ x ∈ st, x ∈ fmt) →
      clean fmt (fixGo fmt evs st) st = true := by
  intro evs
  induction evs with
  | nil => intro st _; rfl
  | cons ev r ih =>
    intro st hst
    cases ev with
    | dat d => simpa [fixGo, clean] using ih st hst
    | stTag t a =>
      by_cases hf : t ∈ fmt
      · by_cases hs : t ∈ st
        · simpa [fixGo, hf, hs] using ih st hst
        · have hst2 : ∀ x ∈ t :: st, x ∈ fmt := by
            intro x hx
            cases hx with
            | head => exact hf
            | tail _ h2 => exact hst x h2
          simpa [fixGo, clean, hf, hs] using ih (t :: st) hst2
      · simpa [fixGo, clean, hf] using ih st hst
    | enTag t =>
      by_cases hf : t ∈ fmt
      · by_cases hs : t ∈ st
        · have hsplit := popTo_eq t st hs
          have hpre : ∀ x ∈ (popTo t st).1, x ∈ fmt := by
            intro x hx
            refine hst x ?_
            rw [← hsplit]
            exact List.mem_append.mpr (Or.inl hx)
          have hrest : ∀ x ∈ (popTo t st).2, x ∈ fmt := by
            intro x hx
            refine hst x ?_
            rw [← hsplit]
            exact List.mem_append.mpr (Or.inr (List.mem_cons_of_mem _ hx))
          simp only [fixGo, hf, hs, if_true]
          generalize hpq : popTo t st = pq at hsplit hpre hrest ⊢
          obtain ⟨p, q⟩ := pq
          simp only at hsplit hpre hrest ⊢
          rw [← hsplit, clean_append_enTags fmt p _ _ hpre]
          simp only [clean, hf, if_true, decide_eq_true_eq]
          simpa using ih q hrest
        · simpa [fixGo, hf, hs] using ih st hst
      · simpa [fixGo, clean, hf] using ih st hst

/-- On a clean stream the fixer is the identity. -/
lemma fixGo_of_clean (fmt : List Str) :
    ∀ (evs : List Ev) (st : List Str), clean fmt evs st = true →
      fixGo fmt evs st = evs := by
  intro evs
  induction evs with
  | nil => intro st _; rfl
  | cons ev r ih =>
    intro st hc
    cases ev with
    | dat d =>
      simp only [clean] at hc
      simp [fixGo, ih st hc]
    | stTag t a =>
      by_cases hf : t ∈ fmt
      · simp only [clean, hf, if_true, Bool.and_eq_true, decide_eq_true_eq] at hc
        simp [fixGo, hf, hc.1, ih (t :: st) hc.2]
      · simp only [clean, hf, if_false] at hc
        simp [fixGo, hf, ih st hc]
    | enTag t =>
      by_cases hf : t ∈ fmt
      · simp only [clean, hf, if_true] at hc
        cases st with
        | nil => simp at hc
        | cons t2 st2 =>
          simp only [Bool.and_eq_true, decide_eq_true_eq] at hc
          obtain ⟨rfl, hc2⟩ := hc
          simp [fixGo, hf, popTo, ih st2 hc2]
      · simp only [clean, hf, if_false] at hc
        simp [fixGo, hf, ih st hc]

/-! #### The HTMLParser tokenizer

A simplified but behaviour-faithful model of CPython's
`html.parser.HTMLParser` for the inputs the fixer meets: `<name ...>` with a
leading letter starts a tag (lower-cased, attributes in order), `</name>`
ends one, any other `<` is character data; with `convert_charrefs` (the
default) character references in data are converted back to characters; and
after a `script` or `style` start tag everything up to the matching end tag
is raw character data with no reference conversion
(`CDATA_CONTENT_ELEMENTS`).  Incomplete trailing constructs stay in the
parser's buffer and are never delivered, since `fixed` calls `feed` without
`close`. -/

def lowerStr (s : Str) : Str := s.map Char.toLower

def wsChar (c : Char) : Bool :=
  c = ' ' || c = '\t' || c = '\n' || c = '\r' || c = '\x0c'

/-- Attribute scanning inside a start tag: returns the attribute list, the
self-closing flag, and the remainder after `>` (or `none` when the tag never
closes). -/
def parseAttrs : Nat → Str → List (Str × Option Str) × Bool × Option Str
  | 0, _ => ([], false, none)
  | n + 1, s =>
    let s1 := s.dropWhile wsChar
    match s1 with
    | [] => ([], false, none)
    | '>' :: r => ([], false, some r)
    | '/' :: '>' :: r => ([], true, some r)
    | '/' :: r => parseAttrs n r
    | _ =>
      let name := s1.takeWhile
        (fun c => !wsChar c && c ≠ '=' && c ≠ '/' && c ≠ '>')
      if name = [] then parseAttrs n (s1.drop 1)
      else
        let s2 := (s1.drop name.length).dropWhile wsChar
        match s2 with
        | '=' :: s3 =>
          let s4 := s3.dropWhile wsChar
          match s4 with
          | '"' :: v =>
            let val := v.takeWhile (· ≠ '"')
            let rest := (v.drop val.length).drop 1
            let (as, sc, r) := parseAttrs n rest
            ((lowerStr name, some (unescapeRefs val.length val)) :: as, sc, r)
          | '\'' :: v =>
            let val := v.takeWhile (· ≠ '\'')
            let rest := (v.drop val.length).drop 1
            let (as, sc, r) := parseAttrs n rest
            ((lowerStr name, some (unescapeRefs val.length val)) :: as, sc, r)
          | _ =>
            let val := s4.takeWhile (fun c => !wsChar c && c ≠ '>')
            let (as, sc, r) := parseAttrs n (s4.drop val.length)
            ((lowerStr name, some (unescapeRefs val.length val)) :: as, sc, r)
        | _ =>
          let (as, sc, r) := parseAttrs n s2
          ((lowerStr name, none) :: as, sc, r)

/-- Tokenizer mode: ordinary content, or the raw-text mode entered after a
`script`/`style` start tag. -/
inductive PMode where
  | norm : PMode
  | raw : Str → PMode

def parseGo : Nat → PMode → Str → List Ev
  | 0, _, _ => []
  | _, _, [] => []
  | n + 1, PMode.norm, s =>
    match s with
    | '<' :: '/' :: c :: r =>
      if c.isAlpha then
        let name := c :: r.takeWhile (fun ch => !wsChar ch && ch ≠ '>')
        match ((c :: r).drop name.length).dropWhile (· ≠ '>') with
        | _ :: r2 => Ev.enTag (lowerStr name) :: parseGo n PMode.norm r2
        | [] => []
      else Ev.dat ['<'] :: parseGo n PMode.norm ('/' :: c :: r)
    | '<' :: c :: r =>
      if c.isAlpha then
        let name := c :: r.takeWhile
          (fun ch => !wsChar ch && ch ≠ '/' && ch ≠ '>')
        let r1 := (c :: r).drop name.length
        match parseAttrs (r1.length + 1) r1 with
        | (attrs, selfc, some r2) =>
          let t := lowerStr name
          if selfc then
            Ev.stTag t attrs :: Ev.enTag t :: parseGo n PMode.norm r2
          else if t = toL "script" ∨ t = toL "style" then
            Ev.stTag t attrs :: parseGo n (PMode.raw t) r2
          else
            Ev.stTag t attrs :: parseGo n PMode.norm r2
        | (_, _, none) => []
      else if c = '!' then
        match (c :: r).dropWhile (· ≠ '>') with
        | _ :: r2 => parseGo n PMode.norm r2
        | [] => []
      else Ev.dat ['<'] :: parseGo n PMode.norm (c :: r)
    | '&' :: r =>
      match matchRef r with
      | some (ch, rest) => Ev.dat [ch] :: parseGo n PMode.norm rest
      | none => Ev.dat ['&'] :: parseGo n PMode.norm r
    | c :: r => Ev.dat [c] :: parseGo n PMode.norm r
    | [] => []
  | n + 1, PMode.raw t, s =>
    if ('<' :: '/' :: t).isPrefixOf s then
      match (s.drop (t.length + 2)).dropWhile (· ≠ '>') with
      | _ :: r2 => Ev.enTag t :: parseGo n PMode.norm r2
      | [] => []
    else
      match s with
      | c :: r => Ev.dat [c] :: parseGo n (PMode.raw t) r
      | [] => []

def parseHtml (s : Str) : List Ev := parseGo (s.length + 1) PMode.norm s

/-- `html.escape` (with quotes), character by character. -/
def escChar (c : Char) : Str :=
  if c = '&' then toL "&amp;"
  else if c = '<' then toL "&lt;"
  else if c = '>' then toL "&gt;"
  else if c = '"' then toL "&quot;"
  else if c = '\'' then toL "&#x27;"
  else [c]

def escStr (s : Str) : Str := s.flatMap escChar

/-- The attribute string `handle_starttag` rebuilds: Python renders a
missing value through `f'"{value}"'`, which prints `None`. -/
def renderAttrs : List (Str × Option Str) → Str
  | [] => []
  | (n, v) :: r =>
    ' ' :: n ++ '=' :: '"' :: (match v with
      | some vv => vv
      | none => toL "None") ++ '"' :: renderAttrs r

/-- The strings the `XmlFixer` handlers append for each event. -/
def renderEv : Ev → Str
  | Ev.dat d => escStr d
  | Ev.stTag t a => '<' :: t ++ renderAttrs a ++ ['>']
  | Ev.enTag t => '<' :: '/' :: t ++ ['>']

def renderEvs (l : List Ev) : Str := l.flatMap renderEv

/-- `XmlFixer(formatTags).fixed(x)` on a fresh instance. -/
def fixedStr (fmt : List Str) (x : Str) : Str :=
  renderEvs (fixGo fmt (parseHtml x) [])

/-- The configured format tags of the fixer's callers: `('em', 'strong')`. -/
def fmtEmStrong : List Str := [toL "em", toL "strong"]

end Fixer

/-! ### Theorems for claims C1, C2, C3, C4, C9 -/

/-- C1 (counterexample): with an existing target file containing `"a"`, a
failure in the post-processing pass (after `_write_element_tree` succeeded)
raises `Error` but leaves the freshly serialized text `"b"` at the target
path, with the original only at `.bak` — the original file is not restored,
so the write is not all-or-nothing across the post-processing pass. -/
theorem postprocess_failure_not_restored :
    yw7Write "b" (postprocessStr true) true true false ⟨some "a", none⟩
      = Except.error ⟨some "b", some "a"⟩
    ∧ (⟨some "b", some "a"⟩ : FS).main ≠ some "a" := by
  constructor
  · rfl
  · decide

/-- C1 (amended): a failure inside `_write_element_tree` itself — whether the
backup rename or the serialization fails — raises `Error` and leaves the
original content at the target path (restored from the backup, or never
touched). -/
theorem writeElementTree_failure_restores (ser orig : String)
    (b : Option String) (rOk wOk : Bool) (fs' : FS)
    (h : writeElementTree ser rOk wOk ⟨some orig, b⟩ = Except.error fs') :
    fs'.main = some orig := by
  cases rOk <;> cases wOk <;>
    simp only [writeElementTree, Bool.false_eq_true, if_false, if_true,
      reduceCtorEq] at h <;>
  first
    | exact h ▸ rfl
    | (injection h with h2; exact h2 ▸ rfl)

theorem writeElementTree_failure_restores_witness :
    FS.main ⟨some "a", none⟩ = some "a" :=
  writeElementTree_failure_restores "b" "a" none false true ⟨some "a", none⟩
    (by rfl)

set_option maxRecDepth 40000 in
/-- C2: because of the missing comma in `_CDATA_TAGS`, the evaluated list
holds the single entry `ConflictField_ChapterHeadingPrefix`, so neither a
`<Conflict>` line nor a `<Field_ChapterHeadingPrefix>` line is wrapped in
CDATA by the post-processing pass (while e.g. `<Goal>` is). -/
theorem conflict_tag_not_cdata_wrapped :
    cdataLine (toL "<Conflict>abc</Conflict>") = toL "<Conflict>abc</Conflict>"
    ∧ cdataLine (toL "<Field_ChapterHeadingPrefix>x</Field_ChapterHeadingPrefix>")
      = toL "<Field_ChapterHeadingPrefix>x</Field_ChapterHeadingPrefix>"
    ∧ cdataLine (toL "<Goal>abc</Goal>") = toL "<Goal><![CDATA[abc]]></Goal>"
    ∧ "ConflictField_ChapterHeadingPrefix" ∈ cdataTags
    ∧ "Conflict" ∉ cdataTags
    ∧ "Field_ChapterHeadingPrefix" ∉ cdataTags := by
  refine ⟨by decide, by decide, by decide, by decide, by decide, by decide⟩

/-- C3 (counterexample): a chapter whose `<ChapterType>` text is `"0"` but
whose `<Unused>` element is present decodes to chType 1, not 0: the reader
checks `elif yUnused: prjChapter.chType = 1` after the `'2'`/`'1'` cases. -/
theorem chapterType_zero_unused_not_normal :
    chTypeOf true (some "0") none = 1 ∧ chTypeOf true (some "0") none ≠ 0 := by
  decide

/-- C3 (amended): a chapter with `<ChapterType>` text `"0"` decodes to
chType 0 when `<Unused>` is absent — regardless of `<Type>` — and to
chType 1 when `<Unused>` is present. -/
theorem chapterType_zero_decode (typ : Option String) :
    chTypeOf false (some "0") typ = 0 ∧ chTypeOf true (some "0") typ = 1 :=
  ⟨rfl, rfl⟩

theorem chapterType_zero_decode_witness :
    chTypeOf false (some "0") (some "1") = 0
    ∧ chTypeOf true (some "0") (some "1") = 1 :=
  chapterType_zero_decode (some "1")

/-- C4: a stage section (scType 3) with tags `["alpha"]` is exported with the
todo encoding (`<Unused>`, `Field_SceneType` 2) and tags `alpha, stage`, as
the claim states; but re-importing yields scType 3 with tags `None` — not
`["alpha"]` — because `prjScn.tags.remove(STAGE_MARKER)`'s result (`None` in
Python) is assigned back to the tags attribute. -/
theorem stage_roundtrip_drops_tags :
    writeSceneType (some 3) (some [toL "alpha"])
      = ⟨true, some "2", some (toL "alpha, stage")⟩
    ∧ readSceneType true (some "2") (some (toL "alpha, stage")) = (3, none)
    ∧ readSceneType true (some "2") (some (toL "alpha, stage"))
        ≠ ((3 : Nat), some [toL "alpha"]) := by
  refine ⟨by decide, by decide, by decide⟩

lemma length_flatMap_pair {α β : Type} (l : List α) (f g : α → β) :
    (l.flatMap (fun x => [f x, g x])).length = 2 * l.length := by
  induction l with
  | nil => rfl
  | cons a t ih => simp only [List.flatMap_cons, List.length_append, ih,
      List.length_cons, List.length_nil]; omega

/-- C9: whenever any locale field is set (non-empty language list, language
code, or country code), `_build_element_tree` emits exactly
`2 + 2 * len(novel.languages)` PROJECTVAR elements: the `Language` and
`Country` variables plus one `lang=X`/`/lang=X` pair per language code. -/
theorem projectvar_count (n : LocaleNovel) (sysLang sysCountry : String)
    (h : localeSet n = true) :
    (buildProjectVars n sysLang sysCountry).length = 2 + 2 * n.languages.length := by
  simp only [buildProjectVars, h, if_true, List.length_cons, length_flatMap_pair]
  omega

theorem projectvar_count_witness :
    (buildProjectVars ⟨["de"], none, none⟩ "en" "US").length
      = 2 + 2 * (List.length (["de"] : List String)) :=
  projectvar_count ⟨["de"], none, none⟩ "en" "US" (by decide)

/-! ### `Yw7File.read` and `_read_scenes`: the section invariant (C10)

The model keeps the parts of the parsed document the claim is about: the
registered character/location/item IDs (the reader registers
`cr`/`lc`/`it`-prefixed IDs under the corresponding roots before the scenes
are read), the scene IDs that the chapter pass recorded as plot points
(`_ywApIds`), and for each `<SCENE>` its `<Status>` text and its
`CharID`/`LocID`/`ItemID` lists (`none` when the container element is
absent).  Scene attributes irrelevant to the claim are omitted. -/

structure ScnXml where
  id : String
  status : Option Int
  chars : Option (List String)
  locs : Option (List String)
  itms : Option (List String)
deriving DecidableEq, Repr

structure YwDoc where
  charIds : List String
  locIds : List String
  itmIds : List String
  apIds : List String
  scenes : List ScnXml
deriving DecidableEq, Repr

/-- The section attributes the claim is about; `make_section` leaves them all
`None` (novxlib defaults). -/
structure SectionR where
  status : Option Int
  characters : Option (List String)
  locations : Option (List String)
  items : Option (List String)
deriving DecidableEq, Repr

def crChildren (d : YwDoc) : List String := d.charIds.map (fun i => "cr" ++ i)

def lcChildren (d : YwDoc) : List String := d.locIds.map (fun i => "lc" ++ i)

def itChildren (d : YwDoc) : List String := d.itmIds.map (fun i => "it" ++ i)

/-- `_read_scenes` for one `<SCENE>` (lines 1233-1234 and 1301-1326): the
status is taken when present; the character/location/item lists are always
assigned, keeping only prefixed IDs registered under the corresponding
root. -/
def readScene (d : YwDoc) (x : ScnXml) : SectionR :=
  { status := x.status
    characters := some (((x.chars.getD []).map (fun c => "cr" ++ c)).filter
      (fun c => (crChildren d).contains c))
    locations := some (((x.locs.getD []).map (fun c => "lc" ++ c)).filter
      (fun c => (lcChildren d).contains c))
    items := some (((x.itms.getD []).map (fun c => "it" ++ c)).filter
      (fun c => (itChildren d).contains c)) }

/-- `_read_scenes` over the `SCENES` list: scenes whose ID was registered as
a plot point become plot points, the rest become sections (lines 1328-1344). -/
def readScenes (d : YwDoc) : List (String × SectionR) :=
  d.scenes.filterMap (fun x =>
    if x.id ∈ d.apIds then none
    else some ("sc" ++ x.id, readScene d x))

/-- The fix-up loop at the end of `read` (lines 218-226): `None` lists become
empty lists and a missing status becomes 1. -/
def fixSection (s : SectionR) : SectionR :=
  { status := some (s.status.getD 1)
    characters := some (s.characters.getD [])
    locations := some (s.locations.getD [])
    items := some (s.items.getD []) }

/-- The sections of the novel after a successful `read`. -/
def yw7ReadSections (d : YwDoc) : List (String × SectionR) :=
  (readScenes d).map (fun p => (p.1, fixSection p.2))

/-- The claimed invariant, decidably: the three lists are present and each of
their elements is registered under the corresponding root, and the status is
present. -/
def goodSection (d : YwDoc) (s : SectionR) : Bool :=
  (match s.characters with
   | some l => l.all (fun c => (crChildren d).contains c)
   | none => false) &&
  (match s.locations with
   | some l => l.all (fun c => (lcChildren d).contains c)
   | none => false) &&
  (match s.items with
   | some l => l.all (fun c => (itChildren d).contains c)
   | none => false) &&
  s.status.isSome

lemma goodSection_read (d : YwDoc) (x : ScnXml) :
    goodSection d (fixSection (readScene d x)) = true := by
  simp only [goodSection, fixSection, readScene, Option.getD_some,
    Option.isSome_some, Bool.and_true, Bool.and_eq_true, List.all_eq_true]
  refine ⟨⟨fun c hc => ?_, fun c hc => ?_⟩, fun c hc => ?_⟩ <;>
    exact (List.mem_filter.mp hc).2

/-! ### Theorems for claims C6 and C7 -/

set_option maxRecDepth 100000 in
/-- C6 (counterexample): the fixer is not idempotent at the string level.
Inside a `script` element CPython's HTMLParser delivers the character data
raw, without converting character references, while `handle_data` escapes it
again on every pass: `fixed("<script>&</script>")` is
`"<script>&amp;</script>"`, and fixing that output yields
`"<script>&amp;amp;</script>"`. -/
theorem fixedStr_not_idempotent :
    Fixer.fixedStr Fixer.fmtEmStrong (toL "<script>&</script>")
      = toL "<script>&amp;</script>"
    ∧ Fixer.fixedStr Fixer.fmtEmStrong
        (Fixer.fixedStr Fixer.fmtEmStrong (toL "<script>&</script>"))
      = toL "<script>&amp;amp;</script>"
    ∧ Fixer.fixedStr Fixer.fmtEmStrong
        (Fixer.fixedStr Fixer.fmtEmStrong (toL "<script>&</script>"))
      ≠ Fixer.fixedStr Fixer.fmtEmStrong (toL "<script>&</script>") := by
  exact ⟨by decide, by decide, by decide⟩

/-- C6 (amended): the fixer is idempotent at the event level: feeding the
event stream it emitted back through the handlers reproduces it unchanged,
for any configured format-tag set.  String-level idempotence fails only
through re-escaping of character data whose references the tokenizer does
not convert back (raw-text elements). -/
theorem fixEvents_idempotent (fmt : List Str) (evs : List Fixer.Ev) :
    Fixer.fixGo fmt (Fixer.fixGo fmt evs []) [] = Fixer.fixGo fmt evs [] :=
  Fixer.fixGo_of_clean fmt _ [] (Fixer.clean_fixGo fmt evs [] (by simp))

theorem fixEvents_idempotent_witness :
    Fixer.fixGo Fixer.fmtEmStrong
        (Fixer.fixGo Fixer.fmtEmStrong
          [Fixer.Ev.stTag (toL "em") [], Fixer.Ev.enTag (toL "em")] []) []
      = Fixer.fixGo Fixer.fmtEmStrong
          [Fixer.Ev.stTag (toL "em") [], Fixer.Ev.enTag (toL "em")] [] :=
  fixEvents_idempotent Fixer.fmtEmStrong
    [Fixer.Ev.stTag (toL "em") [], Fixer.Ev.enTag (toL "em")]

/-- A Boolean substring test (Python `in`). -/
def hasSub (pat s : Str) : Bool := (pyFind pat s).isSome

set_option maxRecDepth 100000 in
/-- C7 (counterexample): the fixer does not remove empty format regions: the
input `<em></em>` passes through unchanged, so the output contains the
substring `<em></em>`.  (The removal step exists only in the legacy
`nvywlib` variant of the class, not in this one.) -/
theorem fixedStr_empty_region_remains :
    Fixer.fixedStr Fixer.fmtEmStrong (toL "<em></em>") = toL "<em></em>"
    ∧ (hasSub (toL "<em></em>")
          (Fixer.fixedStr Fixer.fmtEmStrong (toL "<em></em>"))
        || hasSub (toL "<strong></strong>")
          (Fixer.fixedStr Fixer.fmtEmStrong (toL "<em></em>"))) = true := by
  exact ⟨by decide, by decide⟩

/-- C7 (amended): for every input string, the format tags in the fixer's
output are properly nested: every emitted format end tag closes exactly the
innermost open format region, and no format region is opened twice — so no
pair of format tags is nested in the wrong order.  Empty format regions,
however, may remain in the output. -/
theorem fixOutput_wellNested (fmt : List Str) (x : String) :
    Fixer.clean fmt
      (Fixer.fixGo fmt (Fixer.parseHtml (toL x)) []) [] = true :=
  Fixer.clean_fixGo fmt _ [] (by simp)

theorem fixOutput_wellNested_witness :
    Fixer.clean Fixer.fmtEmStrong
      (Fixer.fixGo Fixer.fmtEmStrong
        (Fixer.parseHtml (toL "<em>a<strong>b</em>c</strong>")) []) [] = true :=
  fixOutput_wellNested Fixer.fmtEmStrong "<em>a<strong>b</em>c</strong>"

/-! ### Theorems for claims C5 and C8 -/

set_option maxRecDepth 100000 in
/-- C5 (counterexample): the shortcode-to-flow converter is not idempotent on
its own output.  `C3("a") = "<p>a</p>"`, but applying the converter to that
output escapes the markup it produced:
`C3("<p>a</p>") = "<p>&lt;p&gt;a&lt;/p&gt;</p>"`. -/
theorem convertToNovx_not_idempotent :
    convertToNovx ⟨none, "T", []⟩ 0 0 (toL "a") = toL "<p>a</p>"
    ∧ convertToNovx ⟨none, "T", []⟩ 0 0
        (convertToNovx ⟨none, "T", []⟩ 0 0 (toL "a"))
      = toL "<p>&lt;p&gt;a&lt;/p&gt;</p>"
    ∧ convertToNovx ⟨none, "T", []⟩ 0 0
        (convertToNovx ⟨none, "T", []⟩ 0 0 (toL "a"))
      ≠ convertToNovx ⟨none, "T", []⟩ 0 0 (toL "a") := by
  exact ⟨by decide, by decide, by decide⟩

/-- C10: after every successful read, every section has its characters,
locations and items attributes set to lists whose elements are IDs registered
under the corresponding root (unregistered references having been silently
dropped), and its status is non-`None`; a scene without a `<Status>` element
ends up with status 1. -/
theorem read_sections_invariant (d : YwDoc) :
    (∀ p ∈ yw7ReadSections d, goodSection d p.2 = true)
    ∧ (∀ x : ScnXml, x.status = none →
        (fixSection (readScene d x)).status = some 1) := by
  constructor
  · intro p hp
    simp only [yw7ReadSections, List.mem_map] at hp
    obtain ⟨q, hq, rfl⟩ := hp
    simp only [readScenes, List.mem_filterMap] at hq
    obtain ⟨x, _, hxq⟩ := hq
    by_cases hid : x.id ∈ d.apIds
    · simp [hid] at hxq
    · simp only [hid, if_false, Option.some.injEq] at hxq
      rw [← hxq]
      exact goodSection_read d x
  · intro x hx
    simp [fixSection, readScene, hx]

theorem read_sections_invariant_witness :
    goodSection ⟨["1"], [], [], [], [⟨"7", none, some ["1", "9"], none, none⟩]⟩
      (fixSection (readScene
        ⟨["1"], [], [], [], [⟨"7", none, some ["1", "9"], none, none⟩]⟩
        ⟨"7", none, some ["1", "9"], none, none⟩)) = true :=
  (read_sections_invariant
      ⟨["1"], [], [], [], [⟨"7", none, some ["1", "9"], none, none⟩]⟩).1
    ("sc7", fixSection (readScene
      ⟨["1"], [], [], [], [⟨"7", none, some ["1", "9"], none, none⟩]⟩
      ⟨"7", none, some ["1", "9"], none, none⟩))
    (by decide)

/-- C5 (amended): with the novel state and the comment timestamp supplied as
explicit parameters the converter is a pure function, so two runs on the same
input and state agree; it maps empty input to empty output and hence is
idempotent on the empty input, but it is not idempotent on its own output in
general. -/
theorem convertToNovx_empty_idempotent (ctx : ConvCtx) (counter number : Nat) :
    convertToNovx ctx counter number [] = []
    ∧ convertToNovx ctx counter number
        (convertToNovx ctx counter number []) = convertToNovx ctx counter number [] := by
  constructor <;> simp [convertToNovx]

theorem convertToNovx_empty_idempotent_witness :
    convertToNovx ⟨none, "T", []⟩ 0 0 [] = []
    ∧ convertToNovx ⟨none, "T", []⟩ 0 0 (convertToNovx ⟨none, "T", []⟩ 0 0 [])
      = convertToNovx ⟨none, "T", []⟩ 0 0 [] :=
  convertToNovx_empty_idempotent ⟨none, "T", []⟩ 0 0

set_option maxRecDepth 400000 in
/-- C8 (counterexample): a scene body consisting of exactly the three notes
`/* @fn first */ /* @fn* starred */ /* @fn second */` starts with `/*`, so
`text.find('/*') > 0` is false and the note conversion is skipped entirely:
no `<note>` element is produced, contradicting the claim for this body. -/
theorem footnotes_at_start_not_converted :
    convertToNovx ⟨none, "T", []⟩ 0 0
        (toL "/* @fn first */ /* @fn* starred */ /* @fn second */")
      = toL "<p>/* @fn first */ /* @fn* starred */ /* @fn second */</p>"
    ∧ pyCount (toL "<note")
        (convertToNovx ⟨none, "T", []⟩ 0 0
          (toL "/* @fn first */ /* @fn* starred */ /* @fn second */")) = 0 := by
  exact ⟨by decide, by decide⟩

set_option maxRecDepth 400000 in
/-- C8 (amended): in `replace_note`, for every state of the per-document
counters, a footnote whose marker ends in `*` emits the citation `*` and
leaves the running note number unchanged, while an unstarred footnote emits
the incremented running number — so the numeric citations a body receives
depend on the notes already converted.  Consequently, for the scene body
`A /* @fn first */ /* @fn* starred */ /* @fn second */` — the three notes
preceded by text, being the only note constructs, with the counters at their
fresh (start-of-read) values — the converter produces three `<note>`
elements whose `<note-citation>` texts are `1`, `*` and `2`. -/
theorem footnote_numbering_after_text :
    (∀ (counter number : Nat) (content : Str),
      noteRepl counter number (toL "fn*") content
        = (mkNote (counter + 1) "footnote" (toL "*") content,
            counter + 1, number)
      ∧ noteRepl counter number (toL "fn") content
        = (mkNote (counter + 1) "footnote" (toL (toString (number + 1))) content,
            counter + 1, number + 1))
    ∧ convertToNovx ⟨none, "T", []⟩ 0 0
        (toL "A /* @fn first */ /* @fn* starred */ /* @fn second */")
      = toL ("<p>A <note id=\"ftn1\" class=\"footnote\"><note-citation>1"
          ++ "</note-citation><p>first </p></note> <note id=\"ftn2\" class="
          ++ "\"footnote\"><note-citation>*</note-citation><p>starred </p>"
          ++ "</note> <note id=\"ftn3\" class=\"footnote\"><note-citation>2"
          ++ "</note-citation><p>second </p></note></p>") := by
  refine ⟨fun counter number content => ⟨rfl, rfl⟩, by decide⟩

end NvYw7
